import Mathlib

/-!
# Verification of the sprint-dashboard status server

Shallow embedding of `src/sprint-dashboard/skills/show-sprint-status/server.py`
(the status-reconciliation and broadcast engine specified in `spec.md`).

Conventions of the embedding:
* Python strings are Lean `String`s; all character-level operations are
  implemented by structural recursion over `String.data` so that every
  definition is kernel-evaluable (`decide`/`rfl` on concrete inputs).
  Case mapping and character classes (`str.lower`, `str.isdigit`,
  `str.isalpha`, whitespace) are modelled for the ASCII range, which is the
  range the server's status vocabulary uses.
* The filesystem is modelled by explicit data: the YAML load result is an
  inductive (`LoadResult`) distinguishing a raised load error, a falsy
  value, a truthy non-mapping, and a mapping; the per-item story-file
  lookup is a function `String → StoryFile` (spec §4.1 calls this "a lookup
  capability for per-item documents"; the code instantiates it with
  `os.path.join(story_dir, key + ".md")`).
* Python `dict` iteration order is insertion order, so the
  `development_status` mapping is a `List (String × String)`; genuine YAML
  mappings have pairwise-distinct keys, which appears as a `Nodup`
  hypothesis where uniqueness matters.
* A Python exception escaping `parse_sprint_status` is modelled by
  `Except PyExc`; the asyncio tasks (watcher, per-connection handlers,
  shutdown timer) are modelled as a step relation on an explicit server
  state, one step per suspension-free code block.
-/

namespace SprintDashboard

/-- ASCII whitespace stripped by Python's `str.strip()` / matched by `\s`. -/
def isPySpace (c : Char) : Bool :=
  c = ' ' || c = '\t' || c = '\n' || c = '\x0d' || c = '\x0b' || c = '\x0c'

/-- ASCII lower-casing of one character (`str.lower` on the ASCII range). -/
def pyLowerChar (c : Char) : Char :=
  if 'A' ≤ c ∧ c ≤ 'Z' then Char.ofNat (c.toNat + 32) else c

/-- Python `s.lower()` (ASCII model). -/
def pyLower (s : String) : String :=
  String.mk (s.data.map pyLowerChar)

/-- Python `s.strip()`: drop leading and trailing whitespace. -/
def pyStrip (s : String) : String :=
  String.mk (((s.data.dropWhile isPySpace).reverse.dropWhile isPySpace).reverse)

/-- Python `c.isalpha()` (ASCII model). -/
def pyIsAlphaChar (c : Char) : Bool :=
  ('a' ≤ c ∧ c ≤ 'z') || ('A' ≤ c ∧ c ≤ 'Z')

/-- Python `c.isdigit()` for one character (ASCII model). -/
def pyIsDigitChar (c : Char) : Bool :=
  '0' ≤ c ∧ c ≤ '9'

/-- Python `s.isdigit()`: nonempty and all digits (ASCII model). -/
def pyIsDigit (s : String) : Bool :=
  !s.data.isEmpty && s.data.all pyIsDigitChar

/-- Split a character list at every occurrence of `sep`, keeping empty
pieces — Python's `s.split('-')` behaviour. -/
def splitCharAux (sep : Char) : List Char → List Char → List String
  | [], acc => [String.mk acc.reverse]
  | c :: cs, acc =>
      if c = sep then String.mk acc.reverse :: splitCharAux sep cs []
      else splitCharAux sep cs (c :: acc)

/-- Python `s.split('-')` (always returns at least one piece). -/
def pySplitOn (sep : Char) (s : String) : List String :=
  splitCharAux sep s.data []

/-- Python `s.split()` with no argument: split on whitespace runs,
discarding empty pieces. -/
def pySplitWs (s : String) : List String :=
  (pySplitOn ' ' (String.mk (s.data.map fun c => if isPySpace c then ' ' else c))).filter
    (fun w => !w.isEmpty)

/-- Python `s.startswith(p)`. -/
def pyStartsWith (s p : String) : Bool :=
  p.data.isPrefixOf s.data

/-- Python `s.replace(old, new)` for single-character `old`/`new`. -/
def pyReplaceChar (old new : Char) (s : String) : String :=
  String.mk (s.data.map fun c => if c = old then new else c)

/-- Boolean infix test on character lists (Python's `sub in s`). -/
def containsSub (p : List Char) : List Char → Bool
  | [] => p.isEmpty
  | c :: cs => p.isPrefixOf (c :: cs) || containsSub p cs

/-- Python `'retrospective' in key`. -/
def pyContainsRetro (key : String) : Bool :=
  containsSub "retrospective".data key.data

/-- Models `re.sub(r'\s*\([^)]*\)\s*$', '', raw)` — the parenthetical-stripping
step of `normalize_status`.  The string matches when, after optional
trailing whitespace, it ends in `)` and the maximal `)`-free run before
that `)` contains a `(`; the leftmost-match rule makes the removed
region start at the *leftmost* `(` of that run (the class `[^)]`
excludes only `)`, so nested `(` stay inside the group).  The leading
`\s*` of the removed region is left in place here: the source applies
`.strip()` right after the `re.sub`, which removes it (see
`normalize_status`). -/
def stripTrailingParen (s : String) : String :=
  let body := (s.data.reverse.dropWhile isPySpace).reverse
  match body.getLast? with
  | some ')' =>
      let core := body.dropLast
      let seg := (core.reverse.takeWhile fun c => c ≠ ')').reverse
      if seg.contains '(' then
        let pos := (seg.takeWhile fun c => c ≠ '(').length
        String.mk (core.take (core.length - seg.length + pos))
      else s
  | _ => s

/-- The closed status vocabulary of `normalize_status`
(`backlog, drafted, ready-for-dev, in-progress, review, done`). -/
def closedStatuses : List String :=
  ["backlog", "drafted", "ready-for-dev", "in-progress", "review", "done"]

/-- The function `normalize_status(raw_status)` — `server.py` lines 552-580.
Lower-case and strip; strip a trailing parenthetical; return closed-set
values unchanged; apply the ordered synonym/prefix rules; otherwise fall
back to the first whitespace-delimited token with `_` replaced by `-`
(`'backlog'` when the string is empty). -/
def normalize_status (raw_status : String) : String :=
  let raw := pyStrip (pyLower raw_status)
  let raw := pyStrip (stripTrailingParen raw)
  if raw ∈ closedStatuses then raw
  else if raw ∈ ["done", "complete", "completed", "finished"] then "done"
  else if pyStartsWith raw "ready for review" || raw = "ready-for-review" then "review"
  else if pyStartsWith raw "in progress" || pyStartsWith raw "in-progress" || raw = "wip" then
    "in-progress"
  else if pyStartsWith raw "ready for dev" || pyStartsWith raw "ready-for-dev" || raw = "ready" then
    "ready-for-dev"
  else if raw = "draft" || raw = "drafted" then "drafted"
  else
    let first_word := if raw.isEmpty then "backlog" else (pySplitWs raw).headD "backlog"
    pyReplaceChar '_' '-' first_word

/-- Python `c.upper()` for one ASCII character. -/
def pyUpperChar (c : Char) : Char :=
  if 'a' ≤ c ∧ c ≤ 'z' then Char.ofNat (c.toNat - 32) else c

/-- Python `str.title()` (ASCII model): upper-case a letter that follows a
non-letter, lower-case a letter that follows a letter.  The boolean
argument records whether the previous character was a letter. -/
def pyTitleAux : Bool → List Char → List Char
  | _, [] => []
  | prevAlpha, c :: cs =>
      (if pyIsAlphaChar c then (if prevAlpha then pyLowerChar c else pyUpperChar c) else c)
        :: pyTitleAux (pyIsAlphaChar c) cs

/-- Python `s.title()` (ASCII model). -/
def pyTitle (s : String) : String :=
  String.mk (pyTitleAux false s.data)

/-- Python `sep.join(parts)` for a one-character separator. -/
def pyJoin (sep : Char) : List String → String
  | [] => ""
  | [p] => p
  | p :: ps => p ++ String.mk [sep] ++ pyJoin sep ps

/-- What the server can observe of one per-item story markdown file
(`story_dir/<key>.md`): the file may be absent (`os.path.exists` false),
opening/reading it may raise (the `except Exception: pass` path), or it
yields its lines.  Lines are modelled without their trailing newline;
`readline` never returns a line with an interior newline, and the regex
match below is invariant under dropping the trailing newline. -/
inductive StoryFile where
  | absent
  | readError
  | fileLines (ls : List String)

/-- Models `re.match(r'^Status:\s*(.+)', line, re.IGNORECASE)`, returning the
captured group.  The literal `Status:` is matched case-insensitively on
the first 7 characters.  `\s*` is greedy but backtracks so that `(.+)`
can match at least one character: when anything non-whitespace follows
the prefix the group starts at the first non-whitespace character; when
only whitespace follows, the group is the last whitespace character; when
nothing follows there is no match. -/
def reMatchStatus (line : String) : Option String :=
  let cs := line.data
  if (cs.take 7).map pyLowerChar = "status:".data then
    let rest := cs.drop 7
    if rest.isEmpty then none
    else
      let afterWs := rest.dropWhile isPySpace
      some (String.mk (if afterWs.isEmpty then rest.reverse.take 1 else afterWs))
  else none

/-- Scan lines in order for the first `Status:` match; on a match return
`normalize_status(match.group(1).strip().lower())`. -/
def firstStatusLine : List String → Option String
  | [] => none
  | l :: ls =>
      match reMatchStatus l with
      | some g => some (normalize_status (pyLower (pyStrip g)))
      | none => firstStatusLine ls

/-- The function `get_status_from_story_file(story_dir, story_key)` — `server.py` lines
515-549.  The story-directory/`os.path.join` addressing is abstracted into
the lookup function `docs` (spec §4.1: "a lookup capability for per-item
documents").  A missing file returns `None`; a raised read error is
swallowed and returns `None`; otherwise only the first 10 lines are
scanned for a status line. -/
def get_status_from_story_file (docs : String → StoryFile) (story_key : String) :
    Option String :=
  match docs story_key with
  | .absent => none
  | .readError => none
  | .fileLines ls => firstStatusLine (ls.take 10)

/-- A WorkItem (story) as placed in the wire payload: `file_status`,
`yaml_status` and `status_mismatch` are only populated when the two
sources disagree (`status_mismatch := false` models the absent key). -/
structure Story where
  key : String
  title : String
  status : String
  file_status : Option String := none
  yaml_status : Option String := none
  status_mismatch : Bool := false
deriving DecidableEq, Repr

/-- A Group (epic): key, display title, raw status, ordered stories. -/
structure Epic where
  key : String
  title : String
  status : String
  stories : List Story
deriving DecidableEq, Repr

/-- One resolution pass's output (`{"epics": ..., "error"?: ...}`); the
internal `_story_dir` bookkeeping field is stripped before the wire and is
not part of the model. -/
structure Snapshot where
  error : Option String := none
  epics : List Epic
deriving DecidableEq, Repr

/-- The epic-entry test — `server.py` line 636:
`key.startswith('epic-') and not any(c.isalpha() for c in key.split('-')[-1] if c != 'e')`. -/
def isEpicKey (key : String) : Bool :=
  pyStartsWith key "epic-" &&
    !(((pySplitOn '-' key).getLastD "").data.any fun c => c ≠ 'e' && pyIsAlphaChar c)

/-- The story-entry test — `server.py` line 650:
`len(parts) >= 2 and parts[0].isdigit()` on `parts = key.split('-')`. -/
def isStoryKey (key : String) : Bool :=
  let parts := pySplitOn '-' key
  parts.length ≥ 2 && pyIsDigit (parts.headD "")

/-- Construction of one story entry — `server.py` lines 661-680.  The
document status is primary; Python truthiness (`if file_status`) treats
the empty string like `None`.  On disagreement between the (normalized)
document status and the *raw* YAML value, both raw values and the
mismatch flag are attached. -/
def mkStoryEntry (docs : String → StoryFile) (key status : String) : Story :=
  let parts := pySplitOn '-' key
  let file_status := get_status_from_story_file docs key
  let yaml_status := status
  let actual_status :=
    match file_status with
    | some fs => if fs = "" then yaml_status else fs
    | none => yaml_status
  let story_title :=
    if parts.length > 2 then pyTitle (pyReplaceChar '-' ' ' (pyJoin '-' (parts.drop 2)))
    else key
  let mismatch :=
    match file_status with
    | some fs => !decide (fs = "") && decide (fs ≠ yaml_status)
    | none => false
  { key := key
    title := story_title
    status := actual_status
    file_status := if mismatch then file_status else none
    yaml_status := if mismatch then some yaml_status else none
    status_mismatch := mismatch }

/-- Append a story to the epic named `epicNum` (the
`epics[epic_num]['stories'].append(story_entry)` step, on the
insertion-ordered association list that models the `epics` dict). -/
def appendStory (epicNum : String) (story : Story) (st : List Epic) : List Epic :=
  st.map fun e => if e.key = epicNum then { e with stories := e.stories ++ [story] } else e

/-- Processing of one `development_status` entry — the body of the loop at
`server.py` lines 630-682, acting on the insertion-ordered epic list. -/
def processEntry (docs : String → StoryFile) (st : List Epic) (kv : String × String) :
    List Epic :=
  let key := kv.1
  let status := kv.2
  if pyContainsRetro key then st
  else if isEpicKey key then
    if st.any (fun e => e.key = key) then st
    else
      st ++ [{ key := key, title := "Epic " ++ (pySplitOn '-' key).getLastD ""
               status := status, stories := [] }]
  else
    let parts := pySplitOn '-' key
    if isStoryKey key then
      let epicNum := "epic-" ++ parts.headD ""
      let st1 :=
        if st.any (fun e => e.key = epicNum) then st
        else
          st ++ [{ key := epicNum, title := "Epic " ++ parts.headD ""
                   status := "in-progress", stories := [] }]
      appendStory epicNum (mkStoryEntry docs key status) st1
    else st

/-- Models `re.findall(r'\d+', s)` with each run converted through `int` — the
maximal digit runs of the key, as numbers.  The accumulator holds the
value of the digit run currently being read. -/
def digitRunsAux : List Char → Option Nat → List Nat
  | [], none => []
  | [], some n => [n]
  | c :: cs, none =>
      if pyIsDigitChar c then digitRunsAux cs (some (c.toNat - 48))
      else digitRunsAux cs none
  | c :: cs, some n =>
      if pyIsDigitChar c then digitRunsAux cs (some (n * 10 + (c.toNat - 48)))
      else n :: digitRunsAux cs none

/-- All numbers embedded in a key, in order. -/
def digitRuns (s : String) : List Nat :=
  digitRunsAux s.data none

/-- The value of `story_sort_key` — a numeric pair, or the
`(float('inf'), key)` fallback when the key holds no number. -/
inductive SortKey where
  | pair (a b : Nat)
  | inf (key : String)
deriving DecidableEq, Repr

/-- The function `story_sort_key(story)` — `server.py` lines 686-698: first two
numbers of the key; one number `n` becomes `(n, 0)`; no number becomes
`(float('inf'), key)`, which compares above every numeric pair. -/
def story_sort_key (story : Story) : SortKey :=
  match digitRuns story.key with
  | a :: b :: _ => .pair a b
  | [a] => .pair a 0
  | [] => .inf story.key

/-- The `≤` induced on sort keys by Python tuple comparison:
numeric pairs lexicographically, every pair below every
`(inf, key)` value, and `(inf, key)` values by key string. -/
def sortKeyLE : SortKey → SortKey → Bool
  | .pair a b, .pair c d => a < c || (a = c && b ≤ d)
  | .pair _ _, .inf _ => true
  | .inf _, .pair _ _ => false
  | .inf k1, .inf k2 => decide (k1 < k2) || decide (k1 = k2)

/-- The comparison `list.sort(key=story_sort_key)` sorts by. -/
def storyLE (s t : Story) : Bool :=
  sortKeyLE (story_sort_key s) (story_sort_key t)

/-- The comparison `storyLE` as a decidable relation. -/
def storyLEP (s t : Story) : Prop :=
  storyLE s t = true

instance : DecidableRel storyLEP := fun s t =>
  inferInstanceAs (Decidable (storyLE s t = true))

/-- Models `epic['stories'].sort(key=story_sort_key)` — Python's `list.sort` is
the stable ascending sort by the key comparison; a stable sort by a total
preorder has a unique result, and `List.insertionSort` is such a stable
sort (its stability is `List.sublist_insertionSort`). -/
def sortStories (l : List Story) : List Story :=
  List.insertionSort storyLEP l

/-- What `yaml.safe_load` handed to `parse_sprint_status` can look like,
as distinguished by the code: the load itself raised (`except` branch);
the result is falsy (`if not data`); the result is a truthy non-mapping
(then `data.get` raises `AttributeError`); the result is a mapping whose
`development_status` value is present but not itself a mapping (then
`.items()` raises); or a mapping whose `development_status` section is a
mapping, given as its insertion-ordered `(key, raw status)` entries
(default `{}`, i.e. `[]`, when the section is missing). -/
inductive LoadResult where
  | loadError (msg : String)
  | falsy
  | nonDict
  | dictBadDev
  | dict (dev_status : List (String × String))

/-- A Python exception escaping `parse_sprint_status`. -/
inductive PyExc where
  | attributeError
deriving DecidableEq, Repr

/-- The grouping loop of `parse_sprint_status`: fold the entry processor
over the `development_status` entries, starting from no epics. -/
def buildEpics (docs : String → StoryFile) (m : List (String × String)) : List Epic :=
  m.foldl (processEntry docs) []

/-- The function `parse_sprint_status(yaml_file)` — `server.py` lines 583-707.  The
YAML load and the story-file lookup are supplied as data (see
`LoadResult`, `StoryFile`); the story-directory derivation (lines
598-621) only determines which lookup function is in effect and is
abstracted into `docs`.  A load error is returned as an error-bearing,
epic-less snapshot; a falsy document gives the bare empty snapshot; a
truthy non-mapping document (or a non-mapping `development_status`)
makes the function raise `AttributeError`, modelled by `Except.error`. -/
def parse_sprint_status (docs : String → StoryFile) : LoadResult → Except PyExc Snapshot
  | .loadError e => .ok { error := some e, epics := [] }
  | .falsy => .ok { error := none, epics := [] }
  | .nonDict => .error .attributeError
  | .dictBadDev => .error .attributeError
  | .dict m =>
      .ok { error := none
            epics := (buildEpics docs m).map fun e => { e with stories := sortStories e.stories } }

/-- JS `doneCount` — `HTML_TEMPLATE` line 424 (client renderer):
`epic.stories.filter(s => s.status === 'done').length`. -/
def doneCount (e : Epic) : Nat :=
  (e.stories.filter fun s => s.status = "done").length

/-- JS `totalCount` — `HTML_TEMPLATE` line 425: `epic.stories.length`. -/
def totalCount (e : Epic) : Nat :=
  e.stories.length

/-- JS `progress` — `HTML_TEMPLATE` line 426:
`totalCount > 0 ? (doneCount / totalCount * 100) : 0`.
JavaScript numbers are modelled by exact rationals; the ternary guard is
what keeps the division away from a zero denominator. -/
def epicProgress (e : Epic) : ℚ :=
  if 0 < totalCount e then (doneCount e : ℚ) / (totalCount e : ℚ) * 100 else 0

/-- Replace every story file whose read raises by an absent file; used to
state that a per-item read failure is handled exactly like a missing
document. -/
def maskReadErrors (docs : String → StoryFile) : String → StoryFile :=
  fun k =>
    match docs k with
    | .readError => .absent
    | f => f

/-- Total number of stories carrying the key `k` across all groups. -/
def storyKeyCount (k : String) (epics : List Epic) : Nat :=
  (epics.map fun e => (e.stories.filter fun s => s.key = k).length).sum

/-- Number of groups containing at least one story keyed `k`. -/
def epicsWithStory (k : String) (epics : List Epic) : Nat :=
  epics.countP fun e => e.stories.any fun s => s.key = k

/-- The epic key that processing an entry with key `k` would materialize
if that epic were not present yet: an explicit epic entry materializes
itself, a story entry materializes `epic-<first token>`, anything else
(including retrospective entries) materializes nothing. -/
def createsKey (k : String) : Option String :=
  if pyContainsRetro k then none
  else if isEpicKey k then some k
  else if isStoryKey k then some ("epic-" ++ (pySplitOn '-' k).headD "")
  else none

/-- The mapping keys whose processing adds a story with key `k`: exactly
the non-retrospective, non-epic, story-shaped entries whose key is `k`. -/
def isCountedKey (k : String) (kv : String × String) : Bool :=
  !pyContainsRetro kv.1 && !isEpicKey kv.1 && isStoryKey kv.1 && decide (kv.1 = k)

/-! ## Connection lifecycle and broadcast model

The asyncio side of the server (`websocket_handler`, `shutdown_timer`,
`file_watcher`) is single-threaded cooperative code: between two `await`
suspension points a handler runs atomically.  Each suspension-free block
that touches the shared state becomes one transition of the `Step`
relation below.  Real time is abstracted to countdown ticks: the pending
`shutdown_timer` task is modelled by the number of whole seconds of its
`asyncio.sleep(30)` still to elapse, and `task.cancel()` by dropping the
pending countdown. -/

/-- A connected viewer.  `closed = true` means the underlying transport
connection has been closed, so a `client.send` to it fails and its
handler's `async for` loop terminates. -/
structure Viewer where
  id : Nat
  closed : Bool
deriving DecidableEq, Repr

/-- The server's global mutable state (`server.py` lines 43-45):
`connected_clients` (a set, modelled as the list of current members),
`shutdown_task` (`some n` iff a shutdown countdown is pending with `n`
seconds of its sleep remaining), and `exited` (the committed `sys.exit`
code, `none` while the process runs). -/
structure ServerState where
  connected_clients : List Viewer
  shutdown_task : Option Nat
  exited : Option Nat
deriving DecidableEq, Repr

/-- The state at process start: no clients, no pending shutdown timer. -/
def initState : ServerState :=
  { connected_clients := [], shutdown_task := none, exited := none }

/-- The connect prologue of `websocket_handler` (lines 726-731): cancel
any pending shutdown countdown, then add the viewer to the set. -/
def onConnect (st : ServerState) (v : Viewer) : ServerState :=
  { st with shutdown_task := none, connected_clients := st.connected_clients ++ [v] }

/-- The `finally` block of `websocket_handler` (lines 749-755): discard
the viewer from the set; if no clients remain, create the shutdown
countdown (30 seconds — `shutdown_timer`'s `asyncio.sleep(30)`). -/
def onDisconnect (st : ServerState) (v : Viewer) : ServerState :=
  let cs := st.connected_clients.filter fun w => w ≠ v
  { st with
    connected_clients := cs
    shutdown_task := if cs.length = 0 then some 30 else st.shutdown_task }

/-- The resumption of `shutdown_timer` after its sleep (lines 763-765):
with still no clients, commit `sys.exit(0)`; otherwise the task ends with
no effect.  Either way no countdown is pending afterwards. -/
def onTimerFire (st : ServerState) : ServerState :=
  if st.connected_clients.length = 0 then
    { st with exited := some 0, shutdown_task := none }
  else { st with shutdown_task := none }

/-- The outcome of one `client.send(message)` inside the broadcast
`gather`: the viewer it addressed, the payload, and whether delivery
succeeded (it fails exactly when the viewer's transport is closed). -/
structure Delivery where
  viewer : Viewer
  payload : String
  delivered : Bool
deriving DecidableEq, Repr

/-- The broadcast of `file_watcher` (lines 815-822):
`asyncio.gather(*[client.send(message) for client in connected_clients],
return_exceptions=True)` — one send per member of the point-in-time
client list; with `return_exceptions=True` a failed send is collected as
a result instead of propagating, so it cancels nothing and the client
set is left untouched. -/
def broadcast (st : ServerState) (msg : String) : List Delivery × ServerState :=
  (st.connected_clients.map fun v => { viewer := v, payload := msg, delivered := !v.closed },
   st)

/-- The interleaving of the suspension-free blocks above, while the
process is alive.  `disconnect` is the handler's `finally`, reached when
the viewer's connection has closed (explicit disconnect and delivery
failure alike); `tick`/`fire` are the passage of one second of the
pending countdown and its resumption after the sleep; `notify` is the
watcher's broadcast (which never changes the state). -/
inductive Step : ServerState → ServerState → Prop
  | connect (st : ServerState) (v : Viewer) (hrun : st.exited = none) :
      Step st (onConnect st v)
  | disconnect (st : ServerState) (v : Viewer) (hmem : v ∈ st.connected_clients)
      (hclosed : v.closed = true) (hrun : st.exited = none) :
      Step st (onDisconnect st v)
  | tick (st : ServerState) (n : Nat) (htask : st.shutdown_task = some (n + 1))
      (hrun : st.exited = none) :
      Step st { st with shutdown_task := some n }
  | fire (st : ServerState) (htask : st.shutdown_task = some 0) (hrun : st.exited = none) :
      Step st (onTimerFire st)
  | notify (st : ServerState) (msg : String) (hrun : st.exited = none) :
      Step st (broadcast st msg).2

end SprintDashboard

namespace SprintDashboard

/-! ## Concrete inputs used by witnesses and counterexamples -/

/-- A story-file lookup under which no per-item document exists. -/
def docsNone : String → StoryFile := fun _ => .absent

/-- A lookup holding one document, for key `1-1-auth`, declaring
`Status: done`. -/
def docsDoneFile : String → StoryFile := fun k =>
  if k = "1-1-auth" then .fileLines ["Status: done"] else .absent

/-- A lookup holding one document, for key `9-9-ghost` (a key that does
not occur in the mapping it is used with). -/
def docsGhost : String → StoryFile := fun k =>
  if k = "9-9-ghost" then .fileLines ["Status: done"] else .absent

/-- Witness snapshot for the two resolution theorems: one mapping entry
`1-1-setup: done` with no document present. -/
def plainEpic : Epic :=
  { key := "epic-1", title := "Epic 1", status := "in-progress"
    stories := [{ key := "1-1-setup", title := "Setup", status := "done" }] }

/-- The story inside `plainEpic`. -/
def plainStory : Story :=
  { key := "1-1-setup", title := "Setup", status := "done" }

/-- The group produced by the mismatch counterexample input. -/
def mismatchEpic : Epic :=
  { key := "epic-1", title := "Epic 1", status := "in-progress"
    stories := [{ key := "1-1-auth", title := "Auth", status := "done"
                  file_status := some "done", yaml_status := some "completed"
                  status_mismatch := true }] }

/-- The story inside `mismatchEpic`. -/
def mismatchStory : Story :=
  { key := "1-1-auth", title := "Auth", status := "done"
    file_status := some "done", yaml_status := some "completed"
    status_mismatch := true }

/-- The snapshot used by the completion-ratio witness. -/
def ratioEpic : Epic :=
  { key := "epic-1", title := "Epic 1", status := "done"
    stories := [{ key := "1-1-x", title := "X", status := "done" },
                { key := "1-2-y", title := "Y", status := "backlog" }] }

/-- The group produced by the sorting witness input: discovery order is
`2-10-b` before `2-2-a`, the snapshot must order `(2,2)` before
`(2,10)`. -/
def sortedEpic : Epic :=
  { key := "epic-2", title := "Epic 2", status := "in-progress"
    stories := [{ key := "2-2-a", title := "A", status := "done" },
                { key := "2-10-b", title := "B", status := "done" }] }

/-- The implicitly materialized group of the witness. -/
def implicitEpic : Epic :=
  { key := "epic-3", title := "Epic 3", status := "in-progress"
    stories := [{ key := "3-1-task", title := "Task", status := "done" }] }

/-- The explicitly declared group of the witness, carrying its raw,
non-normalized status verbatim. -/
def explicitEpic : Epic :=
  { key := "epic-7", title := "Epic 7", status := "In Progress (50%)", stories := [] }

/-- A viewer with an open transport, used by the broadcast witness. -/
def openViewer : Viewer := { id := 1, closed := false }

/-- A viewer whose transport has closed, used by the broadcast witness. -/
def closedViewer : Viewer := { id := 2, closed := true }

/-- A running state with one open and one closed viewer. -/
def bstate : ServerState :=
  { connected_clients := [openViewer, closedViewer], shutdown_task := none, exited := none }

/-- A running state holding one closed viewer, used by the shutdown
witness. -/
def lastViewerState : ServerState :=
  { connected_clients := [closedViewer], shutdown_task := none, exited := none }

/-- A running state with zero viewers and a pending countdown. -/
def idleState : ServerState :=
  { connected_clients := [], shutdown_task := some 2, exited := none }

/-- A running state with zero viewers and an elapsed countdown. -/
def elapsedState : ServerState :=
  { connected_clients := [], shutdown_task := some 0, exited := none }

end SprintDashboard

namespace SprintDashboard

/-! ## Theorems -/

/-- Claim C6, counterexample:  Normalization is *not* idempotent: the raw
status `"ready pizza"` falls through every synonym rule to the fallback
and normalizes to its first word `"ready"`, but `"ready"` itself
normalizes (by the ready-for-dev synonym rule) to `"ready-for-dev"`, so
a second application changes the value. -/
theorem normalize_status_not_idempotent :
    normalize_status (normalize_status "ready pizza") ≠ normalize_status "ready pizza" := by
  decide

/-- Claim C6, amended:  Idempotence does hold on the closed range: whenever
`normalize_status s` lands in the closed status vocabulary (every
non-fallback branch lands there), a second application returns the same
value, because each of the six closed values normalizes to itself. -/
theorem normalize_status_idempotent_on_closed (s : String)
    (h : normalize_status s ∈ closedStatuses) :
    normalize_status (normalize_status s) = normalize_status s := by
  simp only [closedStatuses, List.mem_cons, List.not_mem_nil, or_false] at h
  rcases h with h | h | h | h | h | h <;> rw [h] <;> decide

/-- Witness for `normalize_status_idempotent_on_closed` at the concrete
raw status `"Ready for Review (v2)"` (which normalizes to `"review"`). -/
theorem normalize_status_idempotent_on_closed_witness :
    normalize_status "Ready for Review (v2)" ∈ closedStatuses ∧
    normalize_status (normalize_status "Ready for Review (v2)") =
      normalize_status "Ready for Review (v2)" :=
  ⟨by decide, normalize_status_idempotent_on_closed "Ready for Review (v2)" (by decide)⟩

/-- Claim C9:  For every group of a produced snapshot, the rendered
progress value is the completion ratio `doneCount / totalCount` (scaled
by the fixed factor 100 for the progress-bar width), and the ternary
guard makes it exactly `0` for an empty group, so the division is never
taken with a zero denominator. -/
theorem group_completion_ratio (docs : String → StoryFile) (load : LoadResult)
    (snap : Snapshot) (_hsnap : parse_sprint_status docs load = .ok snap)
    (e : Epic) (_he : e ∈ snap.epics) :
    (0 < totalCount e ∧ epicProgress e = (doneCount e : ℚ) / (totalCount e : ℚ) * 100) ∨
    (totalCount e = 0 ∧ epicProgress e = 0) := by
  by_cases h0 : 0 < totalCount e
  · exact Or.inl ⟨h0, by rw [epicProgress, if_pos h0]⟩
  · exact Or.inr ⟨by omega, by rw [epicProgress, if_neg h0]⟩

/-- Witness for `group_completion_ratio` on a concrete two-story group. -/
theorem group_completion_ratio_witness :
    (0 < totalCount ratioEpic ∧
      epicProgress ratioEpic = (doneCount ratioEpic : ℚ) / (totalCount ratioEpic : ℚ) * 100) ∨
    (totalCount ratioEpic = 0 ∧ epicProgress ratioEpic = 0) :=
  group_completion_ratio docsNone
    (.dict [("epic-1", "done"), ("1-1-x", "done"), ("1-2-y", "backlog")])
    { error := none, epics := [ratioEpic] } rfl ratioEpic (by decide)

end SprintDashboard

namespace SprintDashboard

/-- A story file whose read raises is treated exactly like an absent
story file: both produce "no document status". -/
theorem get_status_maskReadErrors (docs : String → StoryFile) (k : String) :
    get_status_from_story_file (maskReadErrors docs) k =
      get_status_from_story_file docs k := by
  unfold get_status_from_story_file maskReadErrors
  cases docs k <;> rfl

/-- Masking read errors does not change the constructed story entry. -/
theorem mkStoryEntry_maskReadErrors (docs : String → StoryFile) (k v : String) :
    mkStoryEntry (maskReadErrors docs) k v = mkStoryEntry docs k v := by
  unfold mkStoryEntry
  rw [get_status_maskReadErrors]

/-- Masking read errors does not change the processing of one entry. -/
theorem processEntry_maskReadErrors (docs : String → StoryFile) (st : List Epic)
    (kv : String × String) :
    processEntry (maskReadErrors docs) st kv = processEntry docs st kv := by
  unfold processEntry
  simp only [mkStoryEntry_maskReadErrors]

/-- Masking read errors does not change the built group list. -/
theorem buildEpics_maskReadErrors (docs : String → StoryFile)
    (m : List (String × String)) :
    buildEpics (maskReadErrors docs) m = buildEpics docs m := by
  unfold buildEpics
  have h : ∀ (m' : List (String × String)) (st : List Epic),
      m'.foldl (processEntry (maskReadErrors docs)) st = m'.foldl (processEntry docs) st := by
    intro m'
    induction m' with
    | nil => intro st; rfl
    | cons kv t ih =>
        intro st
        rw [List.foldl_cons, List.foldl_cons, processEntry_maskReadErrors]
        exact ih _
  exact h m []

/-- Claim C3, counterexample:  One resolution pass *can* raise: when the
YAML document loads to a truthy non-mapping (e.g. a file whose whole
content is the plain scalar `hello`), `yaml.safe_load` succeeds, the
falsy test fails, and `data.get('story_location', '')` raises
`AttributeError`, which `parse_sprint_status` does not catch — the
exception propagates instead of an error-bearing Snapshot being
returned. -/
theorem resolution_pass_raises :
    parse_sprint_status docsNone LoadResult.nonDict = .error .attributeError := rfl

/-- Claim C3, amended:  Provided the authoritative document loads to a
falsy value or to a mapping whose `development_status` is a mapping (and
whose optional `story_location`, abstracted here into the lookup
function, is absent or a string), one resolution pass never raises: a load failure returns a Snapshot carrying
exactly the error string and no groups; a falsy document returns the
empty Snapshot; a mapping always yields an error-free Snapshot; and a
failure reading one item's document is handled identically to that
document being absent (the item falls back to its index status), never
surfacing as a Snapshot-level error. -/
theorem resolution_error_policy (docs : String → StoryFile) :
    (∀ msg, parse_sprint_status docs (.loadError msg) =
        .ok { error := some msg, epics := [] }) ∧
    (parse_sprint_status docs .falsy = .ok { error := none, epics := [] }) ∧
    (∀ m, ∃ snap, parse_sprint_status docs (.dict m) = .ok snap ∧ snap.error = none) ∧
    (∀ load, parse_sprint_status (maskReadErrors docs) load = parse_sprint_status docs load) := by
  refine ⟨fun msg => rfl, rfl, fun m => ⟨_, rfl, rfl⟩, fun load => ?_⟩
  cases load with
  | dict m =>
      unfold parse_sprint_status
      simp only [buildEpics_maskReadErrors]
  | loadError msg => rfl
  | falsy => rfl
  | nonDict => rfl
  | dictBadDev => rfl

/-- Witness for `resolution_error_policy` at the all-absent lookup,
checked on a load error, a falsy document, a one-entry mapping, and a
lookup whose read raises on every key. -/
theorem resolution_error_policy_witness :
    (∀ msg, parse_sprint_status docsNone (.loadError msg) =
        .ok { error := some msg, epics := [] }) ∧
    (parse_sprint_status docsNone .falsy = .ok { error := none, epics := [] }) ∧
    (∀ m, ∃ snap, parse_sprint_status docsNone (.dict m) = .ok snap ∧ snap.error = none) ∧
    (∀ load, parse_sprint_status (maskReadErrors docsNone) load =
        parse_sprint_status docsNone load) :=
  resolution_error_policy docsNone

end SprintDashboard

namespace SprintDashboard

/-- Membership after `appendStory`: each output epic comes from an input
epic, either enlarged by the new story (when its key matches) or
unchanged. -/
theorem mem_appendStory (epicNum : String) (story : Story) (st : List Epic) (e : Epic)
    (he : e ∈ appendStory epicNum story st) :
    ∃ a ∈ st, (a.key = epicNum ∧ e = { a with stories := a.stories ++ [story] }) ∨
      (a.key ≠ epicNum ∧ e = a) := by
  unfold appendStory at he
  rcases List.mem_map.mp he with ⟨a, ha, hae⟩
  by_cases hk : a.key = epicNum
  · exact ⟨a, ha, Or.inl ⟨hk, by rw [← hae, if_pos hk]⟩⟩
  · exact ⟨a, ha, Or.inr ⟨hk, by rw [← hae, if_neg hk]⟩⟩

/-- Every story present after processing one entry was already present
under the same epic key, or is the story entry built from that very
entry (which is then a non-retrospective, non-epic, story-shaped key,
and lands in the epic named by its first token). -/
theorem mem_stories_processEntry (docs : String → StoryFile) (st : List Epic)
    (kv : String × String) (e : Epic) (he : e ∈ processEntry docs st kv)
    (s : Story) (hs : s ∈ e.stories) :
    (∃ e₀ ∈ st, e₀.key = e.key ∧ s ∈ e₀.stories) ∨
    (pyContainsRetro kv.1 = false ∧ isEpicKey kv.1 = false ∧ isStoryKey kv.1 = true ∧
      s = mkStoryEntry docs kv.1 kv.2 ∧
      e.key = "epic-" ++ (pySplitOn '-' kv.1).headD "") := by
  simp only [processEntry] at he
  split at he
  · exact Or.inl ⟨e, he, rfl, hs⟩
  · rename_i hretro
    split at he
    · rename_i hepic
      split at he
      · exact Or.inl ⟨e, he, rfl, hs⟩
      · rcases List.mem_append.mp he with h | h
        · exact Or.inl ⟨e, h, rfl, hs⟩
        · rw [List.mem_singleton.mp h] at hs
          exact absurd hs (List.not_mem_nil s)
    · rename_i hepic
      split at he
      · rename_i hstory
        rcases mem_appendStory _ _ _ e he with ⟨a, ha, ⟨hk, rfl⟩ | ⟨hk, rfl⟩⟩
        · rcases List.mem_append.mp hs with hsa | hsnew
          · split at ha
            · exact Or.inl ⟨a, ha, rfl, hsa⟩
            · rcases List.mem_append.mp ha with ha' | ha'
              · exact Or.inl ⟨a, ha', rfl, hsa⟩
              · rw [List.mem_singleton.mp ha'] at hsa
                exact absurd hsa (List.not_mem_nil s)
          · refine Or.inr ⟨?_, ?_, hstory, List.mem_singleton.mp hsnew, hk⟩
            · simpa using hretro
            · simpa using hepic
        · split at ha
          · exact Or.inl ⟨e, ha, rfl, hs⟩
          · rcases List.mem_append.mp ha with ha' | ha'
            · exact Or.inl ⟨e, ha', rfl, hs⟩
            · rw [List.mem_singleton.mp ha'] at hs
              exact absurd hs (List.not_mem_nil s)
      · exact Or.inl ⟨e, he, rfl, hs⟩

end SprintDashboard

namespace SprintDashboard

/-- Fold version of `mem_stories_processEntry`: every story in the built
group list comes from the starting accumulator or from one entry of the
processed mapping. -/
theorem mem_stories_foldl (docs : String → StoryFile) :
    ∀ (m : List (String × String)) (st : List Epic) (e : Epic),
      e ∈ m.foldl (processEntry docs) st → ∀ s ∈ e.stories,
      (∃ e₀ ∈ st, e₀.key = e.key ∧ s ∈ e₀.stories) ∨
      (∃ kv ∈ m, pyContainsRetro kv.1 = false ∧ isEpicKey kv.1 = false ∧
        isStoryKey kv.1 = true ∧ s = mkStoryEntry docs kv.1 kv.2 ∧
        e.key = "epic-" ++ (pySplitOn '-' kv.1).headD "") := by
  intro m
  induction m with
  | nil =>
      intro st e he s hs
      exact Or.inl ⟨e, he, rfl, hs⟩
  | cons kv t ih =>
      intro st e he s hs
      rw [List.foldl_cons] at he
      rcases ih _ e he s hs with ⟨e₀, he₀, hkey, hs₀⟩ | ⟨kv', hkv', hprops⟩
      · rcases mem_stories_processEntry docs st kv e₀ he₀ s hs₀ with
          ⟨e₁, he₁, hkey₁, hs₁⟩ | ⟨h1, h2, h3, h4, h5⟩
        · exact Or.inl ⟨e₁, he₁, hkey₁.trans hkey, hs₁⟩
        · exact Or.inr ⟨kv, List.mem_cons_self kv t, h1, h2, h3, h4, hkey ▸ h5⟩
      · exact Or.inr ⟨kv', List.mem_cons_of_mem kv hkv', hprops⟩

/-- Every story of a produced snapshot is `mkStoryEntry` of exactly one
kind of source: a non-retrospective, story-shaped entry of the
`development_status` mapping, and it sits in the group named by the first
token of its key. -/
theorem story_source (docs : String → StoryFile) (m : List (String × String))
    (snap : Snapshot) (h : parse_sprint_status docs (.dict m) = .ok snap)
    (e : Epic) (he : e ∈ snap.epics) (s : Story) (hs : s ∈ e.stories) :
    ∃ kv ∈ m, pyContainsRetro kv.1 = false ∧ isEpicKey kv.1 = false ∧
      isStoryKey kv.1 = true ∧ s = mkStoryEntry docs kv.1 kv.2 ∧
      e.key = "epic-" ++ (pySplitOn '-' kv.1).headD "" := by
  simp only [parse_sprint_status, Except.ok.injEq] at h
  subst h
  rcases List.mem_map.mp he with ⟨e₁, he₁, rfl⟩
  have hs₁ : s ∈ e₁.stories :=
    ((List.perm_insertionSort storyLEP e₁.stories).mem_iff).mp hs
  rcases mem_stories_foldl docs m [] e₁ he₁ s hs₁ with ⟨e₀, he₀, _⟩ | ⟨kv, hkv, hprops⟩
  · exact absurd he₀ (List.not_mem_nil e₀)
  · exact ⟨kv, hkv, hprops⟩

end SprintDashboard

namespace SprintDashboard

/-- Claim C1, counterexample:  The fallback is *not* normalized: with no
per-item document, an item whose index status is the raw string `"Done"`
is resolved to `"Done"` itself, not to the normalized `"done"` the claim
prescribes. -/
theorem resolved_status_counterexample :
    parse_sprint_status docsNone (.dict [("1-1-setup", "Done")]) =
      .ok { error := none
            epics := [{ key := "epic-1", title := "Epic 1", status := "in-progress"
                        stories := [{ key := "1-1-setup", title := "Setup"
                                      status := "Done" }] }] } ∧
    normalize_status "Done" = "done" ∧ ("Done" : String) ≠ "done" :=
  ⟨rfl, rfl, by decide⟩

/-- Claim C1, amended:  Every story of a produced snapshot carries as its
resolved status the document status (already normalized by
`get_status_from_story_file`) when the document lookup yields a truthy
one, and otherwise the index status *exactly as written in the mapping*
(the raw YAML value, with no normalization applied to it). -/
theorem resolved_status_of_story (docs : String → StoryFile)
    (m : List (String × String)) (snap : Snapshot)
    (h : parse_sprint_status docs (.dict m) = .ok snap)
    (e : Epic) (he : e ∈ snap.epics) (s : Story) (hs : s ∈ e.stories) :
    ∃ v, (s.key, v) ∈ m ∧
      s.status = (match get_status_from_story_file docs s.key with
        | some fs => if fs = "" then v else fs
        | none => v) := by
  obtain ⟨kv, hkv, _, _, _, hseq, _⟩ := story_source docs m snap h e he s hs
  have hk : s.key = kv.1 := by rw [hseq]; rfl
  refine ⟨kv.2, ?_, ?_⟩
  · rw [hk]
    simpa using hkv
  · rw [hseq]
    rfl

/-- Witness for `resolved_status_of_story` on a one-entry mapping with no
documents: the story's status is the (raw) index value `done`. -/
theorem resolved_status_of_story_witness :
    ∃ v, (plainStory.key, v) ∈ [(("1-1-setup" : String), ("done" : String))] ∧
      plainStory.status = (match get_status_from_story_file docsNone plainStory.key with
        | some fs => if fs = "" then v else fs
        | none => v) :=
  resolved_status_of_story docsNone [("1-1-setup", "done")]
    { error := none, epics := [plainEpic] } rfl plainEpic (by decide) plainStory (by decide)

end SprintDashboard

namespace SprintDashboard

/-- Field-level description of the mismatch handling in `mkStoryEntry`:
the flag is set iff the document lookup yields a truthy status that
differs, as a raw string, from the index value; both raw values are
attached exactly when the flag is set. -/
theorem mkStoryEntry_mismatch_spec (docs : String → StoryFile) (k v : String) :
    ((mkStoryEntry docs k v).status_mismatch = true ↔
      ∃ fs, get_status_from_story_file docs k = some fs ∧ fs ≠ "" ∧ fs ≠ v) ∧
    ((mkStoryEntry docs k v).status_mismatch = true →
      (mkStoryEntry docs k v).file_status = get_status_from_story_file docs k ∧
      (mkStoryEntry docs k v).yaml_status = some v) ∧
    ((mkStoryEntry docs k v).status_mismatch = false →
      (mkStoryEntry docs k v).file_status = none ∧
      (mkStoryEntry docs k v).yaml_status = none) := by
  simp only [mkStoryEntry]
  cases hg : get_status_from_story_file docs k with
  | none => simp
  | some fs =>
      by_cases he : fs = "" <;> by_cases hv : fs = v <;> simp [he, hv]

end SprintDashboard

namespace SprintDashboard

/-- Claim C2, counterexample:  The mismatch test does not compare
*normalized* forms: with a document status `done` and an index status
`completed` — which normalize to the same value — the produced story
still carries `status_mismatch = true` with both raw values, because the
code compares the normalized document status against the *raw* index
string. -/
theorem mismatch_flag_counterexample :
    parse_sprint_status docsDoneFile (.dict [("1-1-auth", "completed")]) =
      .ok { error := none
            epics := [{ key := "epic-1", title := "Epic 1", status := "in-progress"
                        stories := [{ key := "1-1-auth", title := "Auth", status := "done"
                                      file_status := some "done"
                                      yaml_status := some "completed"
                                      status_mismatch := true }] }] } ∧
    normalize_status "done" = normalize_status "completed" :=
  ⟨rfl, rfl⟩

/-- Claim C2, amended:  For every story of a produced snapshot, the
mismatch flag is set iff the document lookup yielded a truthy status
that differs, *as a raw string*, from the index value (the index value
is not normalized before the comparison); both raw statuses are attached
exactly when the flag is set, and otherwise only the single resolved
status is reported. -/
theorem mismatch_flag_of_story (docs : String → StoryFile)
    (m : List (String × String)) (snap : Snapshot)
    (h : parse_sprint_status docs (.dict m) = .ok snap)
    (e : Epic) (he : e ∈ snap.epics) (s : Story) (hs : s ∈ e.stories) :
    ∃ v, (s.key, v) ∈ m ∧
      (s.status_mismatch = true ↔
        ∃ fs, get_status_from_story_file docs s.key = some fs ∧ fs ≠ "" ∧ fs ≠ v) ∧
      (s.status_mismatch = true →
        s.file_status = get_status_from_story_file docs s.key ∧ s.yaml_status = some v) ∧
      (s.status_mismatch = false → s.file_status = none ∧ s.yaml_status = none) := by
  obtain ⟨kv, hkv, _, _, _, hseq, _⟩ := story_source docs m snap h e he s hs
  have hk : s.key = kv.1 := by rw [hseq]; rfl
  refine ⟨kv.2, by rw [hk]; simpa using hkv, ?_⟩
  rw [hseq]
  exact mkStoryEntry_mismatch_spec docs kv.1 kv.2

/-- Witness for `mismatch_flag_of_story` on the concrete disagreeing
item. -/
theorem mismatch_flag_of_story_witness :
    ∃ v, (mismatchStory.key, v) ∈ [(("1-1-auth" : String), ("completed" : String))] ∧
      (mismatchStory.status_mismatch = true ↔
        ∃ fs, get_status_from_story_file docsDoneFile mismatchStory.key = some fs ∧
          fs ≠ "" ∧ fs ≠ v) ∧
      (mismatchStory.status_mismatch = true →
        mismatchStory.file_status = get_status_from_story_file docsDoneFile mismatchStory.key ∧
        mismatchStory.yaml_status = some v) ∧
      (mismatchStory.status_mismatch = false →
        mismatchStory.file_status = none ∧ mismatchStory.yaml_status = none) :=
  mismatch_flag_of_story docsDoneFile [("1-1-auth", "completed")]
    { error := none, epics := [mismatchEpic] } rfl mismatchEpic (by decide)
    mismatchStory (by decide)

end SprintDashboard

namespace SprintDashboard

/-- The comparison `sortKeyLE` is reflexive. -/
theorem sortKeyLE_refl (a : SortKey) : sortKeyLE a a = true := by
  cases a <;> simp [sortKeyLE]

/-- The comparison `sortKeyLE` is transitive (numeric pairs lexicographically, string
fallbacks by the linear order on strings, pairs below fallbacks). -/
theorem sortKeyLE_trans (a b c : SortKey) (hab : sortKeyLE a b = true)
    (hbc : sortKeyLE b c = true) : sortKeyLE a c = true := by
  cases a with
  | pair a1 a2 =>
      cases c with
      | inf k => simp [sortKeyLE]
      | pair c1 c2 =>
          cases b with
          | inf k => simp [sortKeyLE] at hbc
          | pair b1 b2 =>
              simp only [sortKeyLE, Bool.or_eq_true, Bool.and_eq_true,
                decide_eq_true_eq] at hab hbc ⊢
              omega
  | inf k1 =>
      cases b with
      | pair b1 b2 => simp [sortKeyLE] at hab
      | inf k2 =>
          cases c with
          | pair c1 c2 => simp [sortKeyLE] at hbc
          | inf k3 =>
              simp only [sortKeyLE, Bool.or_eq_true, decide_eq_true_eq] at hab hbc ⊢
              rcases hab with hab | hab <;> rcases hbc with hbc | hbc
              · exact Or.inl (lt_trans hab hbc)
              · exact Or.inl (hbc ▸ hab)
              · exact Or.inl (hab ▸ hbc)
              · exact Or.inr (hab.trans hbc)

/-- The comparison `sortKeyLE` is total. -/
theorem sortKeyLE_total (a b : SortKey) :
    sortKeyLE a b = true ∨ sortKeyLE b a = true := by
  cases a with
  | pair a1 a2 =>
      cases b with
      | inf k => exact Or.inl rfl
      | pair b1 b2 =>
          simp only [sortKeyLE, Bool.or_eq_true, Bool.and_eq_true, decide_eq_true_eq]
          omega
  | inf k1 =>
      cases b with
      | pair b1 b2 => exact Or.inr rfl
      | inf k2 =>
          simp only [sortKeyLE, Bool.or_eq_true, decide_eq_true_eq]
          rcases lt_trichotomy k1 k2 with h | h | h
          · exact Or.inl (Or.inl h)
          · exact Or.inl (Or.inr h)
          · exact Or.inr (Or.inl h)

instance : IsTrans Story storyLEP :=
  ⟨fun _ _ _ hst htu => sortKeyLE_trans _ _ _ hst htu⟩

instance : IsTotal Story storyLEP :=
  ⟨fun s t => sortKeyLE_total (story_sort_key s) (story_sort_key t)⟩

/-- Claim C5:  Within every group of a produced snapshot, the stories are
sorted: each adjacent pair satisfies the sort-key comparison (numeric
pairs lexicographically ascending; keys without numbers compare above
every numeric pair, by key string); and the sort is stable with respect
to ties — the stories are a permutation of the discovery-order list of
that group, and any run of stories with pairwise-equal sort keys keeps
its discovery order. -/
theorem stories_sorted_within_group (docs : String → StoryFile)
    (m : List (String × String)) (snap : Snapshot)
    (h : parse_sprint_status docs (.dict m) = .ok snap)
    (e : Epic) (he : e ∈ snap.epics) :
    List.Chain' storyLEP e.stories ∧
    ∃ e₀ ∈ buildEpics docs m, e₀.key = e.key ∧ e.stories.Perm e₀.stories ∧
      ∀ l : List Story, l.Sublist e₀.stories →
        (l.Pairwise fun s t => story_sort_key s = story_sort_key t) →
        l.Sublist e.stories := by
  simp only [parse_sprint_status, Except.ok.injEq] at h
  subst h
  rcases List.mem_map.mp he with ⟨e₁, he₁, rfl⟩
  refine ⟨(List.sorted_insertionSort storyLEP e₁.stories).chain', e₁, he₁, rfl,
    List.perm_insertionSort storyLEP e₁.stories, ?_⟩
  · intro l hl hties
    refine List.sublist_insertionSort ?_ hl
    refine hties.imp ?_
    intro s t hst
    show sortKeyLE (story_sort_key s) (story_sort_key t) = true
    rw [hst]
    exact sortKeyLE_refl _

end SprintDashboard

namespace SprintDashboard

/-- Witness for `stories_sorted_within_group` on a group whose discovery
order disagrees with numeric order. -/
theorem stories_sorted_within_group_witness :
    List.Chain' storyLEP sortedEpic.stories ∧
    ∃ e₀ ∈ buildEpics docsNone [("2-10-b", "done"), ("2-2-a", "done")],
      e₀.key = sortedEpic.key ∧ sortedEpic.stories.Perm e₀.stories ∧
      ∀ l : List Story, l.Sublist e₀.stories →
        (l.Pairwise fun s t => story_sort_key s = story_sort_key t) →
        l.Sublist sortedEpic.stories :=
  stories_sorted_within_group docsNone [("2-10-b", "done"), ("2-2-a", "done")]
    { error := none, epics := [sortedEpic] } rfl sortedEpic (by decide)

end SprintDashboard

namespace SprintDashboard

/-- The map `appendStory` changes no epic keys. -/
theorem appendStory_map_key (n : String) (story : Story) (st : List Epic) :
    (appendStory n story st).map Epic.key = st.map Epic.key := by
  induction st with
  | nil => rfl
  | cons a t ih =>
      simp only [appendStory, List.map_cons] at ih ⊢
      by_cases hk : a.key = n <;> simp [hk, ih]

/-- Counting over `appendStory`: the new story is counted once per
epic whose key matches the target (once, when keys are distinct). -/
theorem storyKeyCount_appendStory (k n : String) (story : Story) (st : List Epic) :
    storyKeyCount k (appendStory n story st) =
      storyKeyCount k st +
        (st.countP fun e => e.key = n) * (if story.key = k then 1 else 0) := by
  induction st with
  | nil => simp [appendStory, storyKeyCount]
  | cons a t ih =>
      simp only [appendStory, List.map_cons, storyKeyCount, List.sum_cons,
        List.countP_cons] at ih ⊢
      by_cases hk : a.key = n <;> by_cases hs : story.key = k <;>
        simp [hk, hs, List.filter_append] at ih ⊢ <;> omega

/-- Appending a fresh story-less epic does not change story counts. -/
theorem storyKeyCount_append_fresh (k : String) (st : List Epic) (e : Epic)
    (hst : e.stories = []) :
    storyKeyCount k (st ++ [e]) = storyKeyCount k st := by
  simp [storyKeyCount, hst]

/-- With pairwise-distinct epic keys, an epic key that occurs occurs
exactly once. -/
theorem countP_key_eq_one (st : List Epic) (n : String)
    (hnd : (st.map Epic.key).Nodup) (hmem : st.any (fun e => e.key = n) = true) :
    (st.countP fun e => e.key = n) = 1 := by
  have h1 : (st.countP fun e => e.key = n) = List.count n (st.map Epic.key) := by
    rw [List.count, List.countP_map]
    refine List.countP_congr ?_
    intro e _
    simp [Function.comp]
  rw [h1]
  refine List.count_eq_one_of_mem hnd ?_
  rcases List.any_eq_true.mp hmem with ⟨e, he, hk⟩
  exact List.mem_map.mpr ⟨e, he, by simpa using hk⟩

/-- Epic keys after one entry are the old keys, possibly extended with
one materialized key that was not present before. -/
theorem map_key_processEntry (docs : String → StoryFile) (st : List Epic)
    (kv : String × String) :
    (processEntry docs st kv).map Epic.key = st.map Epic.key ∨
    ∃ n, createsKey kv.1 = some n ∧ st.any (fun e => e.key = n) = false ∧
      (processEntry docs st kv).map Epic.key = st.map Epic.key ++ [n] := by
  simp only [processEntry, createsKey]
  split
  · exact Or.inl rfl
  · split
    · split
      · exact Or.inl rfl
      · rename_i hany
        exact Or.inr ⟨kv.1, rfl, by simpa using hany, by simp⟩
    · split
      · rename_i hstory
        split
        · rename_i hany
          rw [appendStory_map_key]
          exact Or.inl rfl
        · rename_i hany
          rw [appendStory_map_key]
          exact Or.inr ⟨_, rfl, by simpa using hany, by simp⟩
      · exact Or.inl rfl

/-- Distinctness of epic keys is preserved by entry processing. -/
theorem nodup_key_processEntry (docs : String → StoryFile) (st : List Epic)
    (kv : String × String) (hnd : (st.map Epic.key).Nodup) :
    ((processEntry docs st kv).map Epic.key).Nodup := by
  rcases map_key_processEntry docs st kv with h | ⟨n, _, hnew, h⟩
  · rw [h]; exact hnd
  · rw [h]
    refine List.Nodup.append hnd (List.nodup_singleton n) ?_
    intro a ha hb
    rw [List.mem_singleton] at hb
    subst hb
    rcases List.mem_map.mp ha with ⟨e, he, hk⟩
    have ht : st.any (fun e' => e'.key = a) = true :=
      List.any_eq_true.mpr ⟨e, he, by simp [hk]⟩
    rw [hnew] at ht
    exact Bool.false_ne_true ht

end SprintDashboard

namespace SprintDashboard

/-- Processing one entry adds exactly one story keyed `k` when the entry
is a non-retrospective story entry with key `k`, and none otherwise
(epic keys being pairwise distinct in the accumulator). -/
theorem storyKeyCount_processEntry (docs : String → StoryFile) (st : List Epic)
    (kv : String × String) (k : String) (hnd : (st.map Epic.key).Nodup) :
    storyKeyCount k (processEntry docs st kv) =
      storyKeyCount k st + (if isCountedKey k kv = true then 1 else 0) := by
  simp only [processEntry]
  split
  · rename_i hretro
    simp [isCountedKey, hretro]
  · rename_i hretro
    rw [Bool.not_eq_true] at hretro
    split
    · rename_i hepic
      split
      · simp [isCountedKey, hretro, hepic]
      · rw [storyKeyCount_append_fresh k st _ rfl]
        simp [isCountedKey, hretro, hepic]
    · rename_i hepic
      rw [Bool.not_eq_true] at hepic
      split
      · rename_i hstory
        split
        · rename_i hany
          rw [storyKeyCount_appendStory, countP_key_eq_one st _ hnd hany]
          have hkey : (mkStoryEntry docs kv.1 kv.2).key = kv.1 := rfl
          simp [isCountedKey, hretro, hepic, hstory, hkey]
        · rename_i hany
          rw [Bool.not_eq_true] at hany
          rw [storyKeyCount_appendStory, storyKeyCount_append_fresh k st _ rfl,
            List.countP_append]
          have h0 : (st.countP fun e =>
              e.key = "epic-" ++ (pySplitOn '-' kv.1).headD "") = 0 := by
            refine List.countP_eq_zero.mpr ?_
            intro e he
            have := (List.any_eq_false.mp hany) e he
            simpa using this
          have hkey : (mkStoryEntry docs kv.1 kv.2).key = kv.1 := rfl
          rw [h0]
          simp [isCountedKey, hretro, hepic, hstory, hkey]
      · rename_i hstory
        rw [Bool.not_eq_true] at hstory
        simp [isCountedKey, hstory]

/-- Fold version: the total number of stories keyed `k` equals its count
in the starting accumulator plus the number of mapping entries that
produce a story keyed `k`. -/
theorem storyKeyCount_foldl (docs : String → StoryFile) (k : String) :
    ∀ (m : List (String × String)) (st : List Epic), (st.map Epic.key).Nodup →
      storyKeyCount k (m.foldl (processEntry docs) st) =
        storyKeyCount k st + m.countP (isCountedKey k) := by
  intro m
  induction m with
  | nil => intro st _; simp
  | cons kv t ih =>
      intro st hnd
      rw [List.foldl_cons, ih _ (nodup_key_processEntry docs st kv hnd),
        storyKeyCount_processEntry docs st kv k hnd, List.countP_cons]
      omega

/-- Per-group sorting does not change story counts. -/
theorem storyKeyCount_map_sort (k : String) (epics : List Epic) :
    storyKeyCount k (epics.map fun e => { e with stories := sortStories e.stories }) =
      storyKeyCount k epics := by
  unfold storyKeyCount
  rw [List.map_map]
  refine congrArg List.sum (List.map_congr_left ?_)
  intro e _
  simp only [Function.comp]
  exact ((List.perm_insertionSort storyLEP e.stories).filter _).length_eq

/-- Expressing `epicsWithStory` as a positivity count over the per-group counts. -/
theorem epicsWithStory_eq_countP (k : String) (epics : List Epic) :
    epicsWithStory k epics =
      ((epics.map fun e => (e.stories.filter fun s => s.key = k).length).countP
        fun n => 0 < n) := by
  unfold epicsWithStory
  rw [List.countP_map]
  refine List.countP_congr ?_
  intro e _
  simp only [Function.comp, List.any_eq_true, decide_eq_true_eq, List.length_pos, Ne,
    List.filter_eq_nil_iff]
  constructor
  · rintro ⟨s, hs, hk⟩ hall
    exact (hall s hs) hk
  · intro hne
    by_contra hnot
    push_neg at hnot
    exact hne fun s hs hk => hnot s hs hk

/-- A list of naturals summing to zero has no positive member. -/
theorem countP_pos_of_sum_zero (l : List Nat) (h : l.sum = 0) :
    (l.countP fun n => 0 < n) = 0 := by
  induction l with
  | nil => rfl
  | cons a t ih =>
      rw [List.sum_cons] at h
      have ha : a = 0 := by omega
      subst ha
      rw [List.countP_cons, ih (by omega)]
      simp

/-- A list of naturals summing to one has exactly one positive member. -/
theorem countP_pos_of_sum_one (l : List Nat) (h : l.sum = 1) :
    (l.countP fun n => 0 < n) = 1 := by
  induction l with
  | nil => simp at h
  | cons a t ih =>
      rw [List.sum_cons] at h
      rw [List.countP_cons]
      by_cases ha : a = 0
      · subst ha
        rw [ih (by omega)]
        simp
      · have ht : t.sum = 0 := by omega
        rw [countP_pos_of_sum_zero t ht]
        simp [Nat.pos_of_ne_zero ha]

end SprintDashboard

namespace SprintDashboard

/-- Claim C4, counterexample:  The snapshot *does* omit observed items: the
non-retrospective mapping key `misc-note` matches neither the group
pattern nor the item pattern (first dash token not numeric) and is
silently dropped, and the per-item document existing for `9-9-ghost`
(a key absent from the mapping) is never consulted — the produced
snapshot has no groups and hence no WorkItem for either. -/
theorem snapshot_omits_counterexample :
    parse_sprint_status docsGhost (.dict [("misc-note", "todo")]) =
      .ok { error := none, epics := [] } ∧
    pyContainsRetro "misc-note" = false ∧
    get_status_from_story_file docsGhost "9-9-ghost" = some "done" :=
  ⟨rfl, rfl, rfl⟩

/-- Claim C4, amended:  Every non-retrospective key of the authoritative
mapping that matches the item pattern (at least two dash-separated
tokens, the first numeric, and not the explicit group pattern) appears
as a WorkItem in exactly one Group of the produced snapshot: the total
number of stories carrying that key is one, and exactly one group
contains such a story.  Keys matching neither pattern, and per-item
documents whose key has no mapping entry, do not appear. -/
theorem item_key_in_exactly_one_group (docs : String → StoryFile)
    (m : List (String × String)) (k : String) (snap : Snapshot)
    (hnd : (m.map Prod.fst).Nodup) (hmem : k ∈ m.map Prod.fst)
    (hretro : pyContainsRetro k = false) (hepic : isEpicKey k = false)
    (hstory : isStoryKey k = true)
    (h : parse_sprint_status docs (.dict m) = .ok snap) :
    storyKeyCount k snap.epics = 1 ∧ epicsWithStory k snap.epics = 1 := by
  simp only [parse_sprint_status, Except.ok.injEq] at h
  subst h
  have hcount : m.countP (isCountedKey k) = 1 := by
    have h1 : m.countP (isCountedKey k) = List.count k (m.map Prod.fst) := by
      rw [List.count, List.countP_map]
      refine List.countP_congr ?_
      intro kv _
      simp only [isCountedKey, Function.comp, Bool.and_eq_true, Bool.not_eq_true',
        decide_eq_true_eq, beq_iff_eq]
      constructor
      · rintro ⟨⟨⟨_, _⟩, _⟩, hk⟩
        exact hk
      · rintro rfl
        exact ⟨⟨⟨hretro, hepic⟩, hstory⟩, rfl⟩
    rw [h1]
    exact List.count_eq_one_of_mem hnd hmem
  have hsk : storyKeyCount k
      ((buildEpics docs m).map fun e => { e with stories := sortStories e.stories }) = 1 := by
    rw [storyKeyCount_map_sort]
    unfold buildEpics
    rw [storyKeyCount_foldl docs k m [] (by simp)]
    simpa [storyKeyCount] using hcount
  refine ⟨hsk, ?_⟩
  rw [epicsWithStory_eq_countP]
  exact countP_pos_of_sum_one _ hsk

/-- Witness for `item_key_in_exactly_one_group` on the one-item mapping
`1-1-setup: done`. -/
theorem item_key_in_exactly_one_group_witness :
    storyKeyCount "1-1-setup" [plainEpic] = 1 ∧
    epicsWithStory "1-1-setup" [plainEpic] = 1 :=
  item_key_in_exactly_one_group docsNone [("1-1-setup", "done")] "1-1-setup"
    { error := none, epics := [plainEpic] } (by decide) (by decide) (by decide)
    (by decide) (by decide) rfl

end SprintDashboard

namespace SprintDashboard

/-- After one entry, every epic either keeps the key/title/status of an
epic already in the accumulator, or was materialized by this entry:
explicitly (carrying the entry's raw status value) or implicitly for a
story entry (status the literal `in-progress`, title from the group
number). -/
theorem epic_fields_processEntry (docs : String → StoryFile) (st : List Epic)
    (kv : String × String) (e : Epic) (he : e ∈ processEntry docs st kv) :
    (∃ e₀ ∈ st, e.key = e₀.key ∧ e.title = e₀.title ∧ e.status = e₀.status) ∨
    (pyContainsRetro kv.1 = false ∧
      ((isEpicKey kv.1 = true ∧ e.key = kv.1 ∧
        e.title = "Epic " ++ (pySplitOn '-' kv.1).getLastD "" ∧ e.status = kv.2) ∨
       (isEpicKey kv.1 = false ∧ isStoryKey kv.1 = true ∧
        e.key = "epic-" ++ (pySplitOn '-' kv.1).headD "" ∧
        e.title = "Epic " ++ (pySplitOn '-' kv.1).headD "" ∧
        e.status = "in-progress"))) := by
  simp only [processEntry] at he
  split at he
  · exact Or.inl ⟨e, he, rfl, rfl, rfl⟩
  · rename_i hretro
    rw [Bool.not_eq_true] at hretro
    split at he
    · rename_i hepic
      split at he
      · exact Or.inl ⟨e, he, rfl, rfl, rfl⟩
      · rcases List.mem_append.mp he with h | h
        · exact Or.inl ⟨e, h, rfl, rfl, rfl⟩
        · rw [List.mem_singleton.mp h]
          exact Or.inr ⟨hretro, Or.inl ⟨hepic, rfl, rfl, rfl⟩⟩
    · rename_i hepic
      rw [Bool.not_eq_true] at hepic
      split at he
      · rename_i hstory
        rcases mem_appendStory _ _ _ e he with ⟨a, ha, ⟨hk, rfl⟩ | ⟨hk, rfl⟩⟩
        · split at ha
          · exact Or.inl ⟨a, ha, rfl, rfl, rfl⟩
          · rcases List.mem_append.mp ha with h | h
            · exact Or.inl ⟨a, h, rfl, rfl, rfl⟩
            · rw [List.mem_singleton.mp h]
              exact Or.inr ⟨hretro, Or.inr ⟨hepic, hstory, rfl, rfl, rfl⟩⟩
        · split at ha
          · exact Or.inl ⟨e, ha, rfl, rfl, rfl⟩
          · rcases List.mem_append.mp ha with h | h
            · exact Or.inl ⟨e, h, rfl, rfl, rfl⟩
            · rw [List.mem_singleton.mp h]
              exact Or.inr ⟨hretro, Or.inr ⟨hepic, hstory, rfl, rfl, rfl⟩⟩
      · exact Or.inl ⟨e, he, rfl, rfl, rfl⟩

end SprintDashboard

namespace SprintDashboard

/-- Fold version of `epic_fields_processEntry`. -/
theorem epic_fields_foldl (docs : String → StoryFile) :
    ∀ (m : List (String × String)) (st : List Epic) (e : Epic),
      e ∈ m.foldl (processEntry docs) st →
      (∃ e₀ ∈ st, e.key = e₀.key ∧ e.title = e₀.title ∧ e.status = e₀.status) ∨
      (∃ kv ∈ m, pyContainsRetro kv.1 = false ∧
        ((isEpicKey kv.1 = true ∧ e.key = kv.1 ∧
          e.title = "Epic " ++ (pySplitOn '-' kv.1).getLastD "" ∧ e.status = kv.2) ∨
         (isEpicKey kv.1 = false ∧ isStoryKey kv.1 = true ∧
          e.key = "epic-" ++ (pySplitOn '-' kv.1).headD "" ∧
          e.title = "Epic " ++ (pySplitOn '-' kv.1).headD "" ∧
          e.status = "in-progress"))) := by
  intro m
  induction m with
  | nil =>
      intro st e he
      exact Or.inl ⟨e, he, rfl, rfl, rfl⟩
  | cons kv t ih =>
      intro st e he
      rw [List.foldl_cons] at he
      rcases ih _ e he with ⟨e₀, he₀, hk, ht, hs⟩ | ⟨kv', hkv', hprops⟩
      · rcases epic_fields_processEntry docs st kv e₀ he₀ with
          ⟨e₁, he₁, hk₁, ht₁, hs₁⟩ | ⟨h1, h2⟩
        · exact Or.inl ⟨e₁, he₁, hk.trans hk₁, ht.trans ht₁, hs.trans hs₁⟩
        · refine Or.inr ⟨kv, List.mem_cons_self kv t, h1, ?_⟩
          rcases h2 with ⟨ha, hb, hc, hd⟩ | ⟨ha, hb, hc, hd, hx⟩
          · exact Or.inl ⟨ha, hk.trans hb, ht.trans hc, hs.trans hd⟩
          · exact Or.inr ⟨ha, hb, hk.trans hc, ht.trans hd, hs.trans hx⟩
      · exact Or.inr ⟨kv', List.mem_cons_of_mem kv hkv', hprops⟩

/-- Processing one entry keeps every existing epic's key, title and
status (only its story list may grow). -/
theorem epic_persists_processEntry (docs : String → StoryFile) (st : List Epic)
    (kv : String × String) (e : Epic) (he : e ∈ st) :
    ∃ e' ∈ processEntry docs st kv,
      e'.key = e.key ∧ e'.title = e.title ∧ e'.status = e.status := by
  simp only [processEntry]
  split
  · exact ⟨e, he, rfl, rfl, rfl⟩
  · split
    · split
      · exact ⟨e, he, rfl, rfl, rfl⟩
      · exact ⟨e, List.mem_append.mpr (Or.inl he), rfl, rfl, rfl⟩
    · split
      · simp only [appendStory]
        by_cases hk : e.key = "epic-" ++ (pySplitOn '-' kv.1).headD ""
        · refine ⟨{ e with stories := e.stories ++ [mkStoryEntry docs kv.1 kv.2] },
            ?_, rfl, rfl, rfl⟩
          refine List.mem_map.mpr ⟨e, ?_, by rw [if_pos hk]⟩
          split
          · exact he
          · exact List.mem_append.mpr (Or.inl he)
        · refine ⟨e, ?_, rfl, rfl, rfl⟩
          refine List.mem_map.mpr ⟨e, ?_, by rw [if_neg hk]⟩
          split
          · exact he
          · exact List.mem_append.mpr (Or.inl he)
      · exact ⟨e, he, rfl, rfl, rfl⟩

/-- Fold version of `epic_persists_processEntry`. -/
theorem epic_persists_foldl (docs : String → StoryFile) :
    ∀ (m : List (String × String)) (st : List Epic) (e : Epic), e ∈ st →
      ∃ e' ∈ m.foldl (processEntry docs) st,
        e'.key = e.key ∧ e'.title = e.title ∧ e'.status = e.status := by
  intro m
  induction m with
  | nil =>
      intro st e he
      exact ⟨e, he, rfl, rfl, rfl⟩
  | cons kv t ih =>
      intro st e he
      rw [List.foldl_cons]
      obtain ⟨e₁, he₁, hk₁, ht₁, hs₁⟩ := epic_persists_processEntry docs st kv e he
      obtain ⟨e', he', hk, ht, hs⟩ := ih _ e₁ he₁
      exact ⟨e', he', hk.trans hk₁, ht.trans ht₁, hs.trans hs₁⟩

/-- A group key never materialized by any processed entry stays absent. -/
theorem not_mem_keys_foldl (docs : String → StoryFile) (g : String) :
    ∀ (m : List (String × String)) (st : List Epic),
      (∀ kv ∈ m, createsKey kv.1 ≠ some g) →
      g ∉ st.map Epic.key → g ∉ (m.foldl (processEntry docs) st).map Epic.key := by
  intro m
  induction m with
  | nil =>
      intro st _ hg
      exact hg
  | cons kv t ih =>
      intro st hall hg
      rw [List.foldl_cons]
      refine ih _ (fun kv' h => hall kv' (List.mem_cons_of_mem kv h)) ?_
      rcases map_key_processEntry docs st kv with h | ⟨n, hc, _, h⟩
      · rw [h]; exact hg
      · rw [h]
        intro hmem
        rcases List.mem_append.mp hmem with hmem | hmem
        · exact hg hmem
        · rw [← List.mem_singleton.mp hmem] at hc
          exact hall kv (List.mem_cons_self kv t) hc

end SprintDashboard

namespace SprintDashboard

/-- Claim C10:  Group statuses bypass normalization, and materialization
origin fixes the fields: a group whose key has no entry of its own in
the mapping (it exists only because story keys referenced its number)
carries the literal status `in-progress` and the title `Epic N`; a group
created by an explicit epic entry (no earlier entry having materialized
that group) carries the mapping's raw status value unchanged. -/
theorem group_status_origin (docs : String → StoryFile) :
    (∀ (m : List (String × String)) (snap : Snapshot),
      parse_sprint_status docs (.dict m) = .ok snap →
      ∀ e ∈ snap.epics, e.key ∉ m.map Prod.fst →
        e.status = "in-progress" ∧ ∃ t, e.key = "epic-" ++ t ∧ e.title = "Epic " ++ t) ∧
    (∀ (m₁ m₂ : List (String × String)) (g v : String) (snap : Snapshot),
      pyContainsRetro g = false → isEpicKey g = true →
      (∀ kv ∈ m₁, createsKey kv.1 ≠ some g) →
      parse_sprint_status docs (.dict (m₁ ++ (g, v) :: m₂)) = .ok snap →
      ∃ e ∈ snap.epics, e.key = g ∧ e.status = v ∧
        e.title = "Epic " ++ (pySplitOn '-' g).getLastD "") := by
  constructor
  · intro m snap h e he hno
    simp only [parse_sprint_status, Except.ok.injEq] at h
    subst h
    rcases List.mem_map.mp he with ⟨e₁, he₁, rfl⟩
    rcases epic_fields_foldl docs m [] e₁ he₁ with ⟨e₀, he₀, _⟩ | ⟨kv, hkv, _, hcase⟩
    · exact absurd he₀ (List.not_mem_nil e₀)
    · rcases hcase with ⟨_, hkey, _, _⟩ | ⟨_, _, hkey, htitle, hstatus⟩
      · exact absurd (List.mem_map.mpr ⟨kv, hkv, hkey.symm⟩) hno
      · exact ⟨hstatus, (pySplitOn '-' kv.1).headD "", hkey, htitle⟩
  · intro m₁ m₂ g v snap hretro hepicg hfresh h
    simp only [parse_sprint_status, Except.ok.injEq] at h
    subst h
    have hacc : g ∉ (m₁.foldl (processEntry docs) []).map Epic.key :=
      not_mem_keys_foldl docs g m₁ [] hfresh (by simp)
    have hany : ((m₁.foldl (processEntry docs) []).any fun e => e.key = g) = false := by
      rw [List.any_eq_false]
      intro e he hk
      exact hacc (List.mem_map.mpr ⟨e, he, by simpa using hk⟩)
    have hstep : processEntry docs (m₁.foldl (processEntry docs) []) (g, v) =
        (m₁.foldl (processEntry docs) []) ++
          [{ key := g, title := "Epic " ++ (pySplitOn '-' g).getLastD "",
             status := v, stories := [] }] := by
      simp only [processEntry]
      rw [if_neg (by simp [hretro]), if_pos (by simpa using hepicg),
        if_neg (by simp [hany])]
    have hmem₁ : ({ key := g, title := "Epic " ++ (pySplitOn '-' g).getLastD "",
                    status := v, stories := [] } : Epic) ∈
        processEntry docs (m₁.foldl (processEntry docs) []) (g, v) := by
      rw [hstep]
      exact List.mem_append.mpr (Or.inr (List.mem_singleton.mpr rfl))
    obtain ⟨e', he', hk, ht, hs⟩ := epic_persists_foldl docs m₂ _ _ hmem₁
    refine ⟨{ e' with stories := sortStories e'.stories }, ?_, hk, hs, ht⟩
    refine List.mem_map.mpr ⟨e', ?_, rfl⟩
    unfold buildEpics
    rw [List.foldl_append, List.foldl_cons]
    exact he'

/-- Witness for `group_status_origin`: one group materialized only by a
story key, one group declared explicitly with a raw status string. -/
theorem group_status_origin_witness :
    (implicitEpic.status = "in-progress" ∧
      ∃ t, implicitEpic.key = "epic-" ++ t ∧ implicitEpic.title = "Epic " ++ t) ∧
    (∃ e ∈ ({ error := none, epics := [explicitEpic] } : Snapshot).epics,
      e.key = "epic-7" ∧ e.status = "In Progress (50%)" ∧
      e.title = "Epic " ++ (pySplitOn '-' "epic-7").getLastD "") :=
  ⟨(group_status_origin docsNone).1 [("3-1-task", "done")]
      { error := none, epics := [implicitEpic] } rfl implicitEpic (by decide) (by decide),
   (group_status_origin docsNone).2 [] [] "epic-7" "In Progress (50%)"
      { error := none, epics := [explicitEpic] } (by decide) (by decide)
      (fun kv h => absurd h (List.not_mem_nil kv)) rfl⟩

end SprintDashboard

namespace SprintDashboard

/-- In one broadcast pass, an open viewer's successful deliveries are
exactly its occurrences in the point-in-time client list — independent of
every other viewer's state. -/
theorem broadcast_delivered_open (cs : List Viewer) (msg : String) (v : Viewer)
    (hv : v.closed = false) :
    ((cs.map fun w => ({ viewer := w, payload := msg, delivered := !w.closed } : Delivery)).filter
        (fun d => d.viewer = v && d.delivered)).length =
      (cs.filter fun w => w = v).length := by
  induction cs with
  | nil => rfl
  | cons w t ih =>
      by_cases hw : w = v
      · subst hw
        simp [List.filter_cons, hv, ih]
      · simp [List.filter_cons, hw, ih]

/-- A closed viewer receives zero payloads from any broadcast pass. -/
theorem broadcast_delivered_closed (cs : List Viewer) (msg : String) (v : Viewer)
    (hv : v.closed = true) :
    ((cs.map fun w => ({ viewer := w, payload := msg, delivered := !w.closed } : Delivery)).filter
        (fun d => d.viewer = v && d.delivered)).length = 0 := by
  induction cs with
  | nil => rfl
  | cons w t ih =>
      by_cases hw : w = v
      · subst hw
        simp [List.filter_cons, hv, ih]
      · simp [List.filter_cons, hw, ih]

/-- Claim C7:  On one change signal the watcher attempts exactly one send
per member of the point-in-time viewer list; every open viewer's
delivery succeeds regardless of other viewers failing, and a viewer
whose transport is closed receives zero payloads in this and in every
later broadcast; the broadcast itself (a `gather` with
`return_exceptions=True`) neither raises nor alters the viewer set — the
failing viewer is removed by its own handler's `finally`, exactly as on
an explicit disconnect, which removes that viewer alone.  (That the
handler task gets scheduled is asyncio fairness, assumed by the model.) -/
theorem broadcast_fanout (st : ServerState) (msg : String) :
    ((broadcast st msg).1.map Delivery.viewer = st.connected_clients) ∧
    ((broadcast st msg).2 = st) ∧
    (∀ v ∈ st.connected_clients, v.closed = false →
      ((broadcast st msg).1.filter fun d => d.viewer = v && d.delivered).length =
        (st.connected_clients.filter fun w => w = v).length) ∧
    (∀ v : Viewer, v.closed = true →
      ((broadcast st msg).1.filter fun d => d.viewer = v && d.delivered).length = 0) ∧
    (∀ v ∈ st.connected_clients, v.closed = true → st.exited = none →
      Step st (onDisconnect st v) ∧ v ∉ (onDisconnect st v).connected_clients ∧
      ∀ w ∈ st.connected_clients, w ≠ v →
        w ∈ (onDisconnect st v).connected_clients) := by
  refine ⟨?_, rfl, ?_, ?_, ?_⟩
  · show List.map Delivery.viewer
      (st.connected_clients.map fun v =>
        ({ viewer := v, payload := msg, delivered := !v.closed } : Delivery)) =
      st.connected_clients
    rw [List.map_map]
    exact List.map_id st.connected_clients
  · intro v _ hv
    exact broadcast_delivered_open st.connected_clients msg v hv
  · intro v hv
    exact broadcast_delivered_closed st.connected_clients msg v hv
  · intro v hmem hclosed hrun
    refine ⟨Step.disconnect st v hmem hclosed hrun, ?_, ?_⟩
    · intro hv
      have : (decide (v ≠ v)) = true := (List.mem_filter.mp hv).2
      simp at this
    · intro w hw hne
      exact List.mem_filter.mpr ⟨hw, by simpa using hne⟩

/-- Witness for `broadcast_fanout`: two viewers, one of which fails
delivery; the open one is delivered to, the closed one receives nothing
and its disconnect removes only it. -/
theorem broadcast_fanout_witness :
    ((broadcast bstate "update").1.map Delivery.viewer = bstate.connected_clients) ∧
    ((broadcast bstate "update").1.filter
        fun d => d.viewer = openViewer && d.delivered).length =
      (bstate.connected_clients.filter fun w => w = openViewer).length ∧
    ((broadcast bstate "update").1.filter
        fun d => d.viewer = closedViewer && d.delivered).length = 0 ∧
    (Step bstate (onDisconnect bstate closedViewer) ∧
      closedViewer ∉ (onDisconnect bstate closedViewer).connected_clients ∧
      ∀ w ∈ bstate.connected_clients, w ≠ closedViewer →
        w ∈ (onDisconnect bstate closedViewer).connected_clients) :=
  ⟨(broadcast_fanout bstate "update").1,
   (broadcast_fanout bstate "update").2.2.1 openViewer (by decide) rfl,
   (broadcast_fanout bstate "update").2.2.2.1 closedViewer rfl,
   (broadcast_fanout bstate "update").2.2.2.2 closedViewer (by decide) rfl rfl⟩

end SprintDashboard

namespace SprintDashboard

/-- Claim C8, counterexample:  "Whenever the process has zero connected
viewers, a fixed 30-second countdown runs" fails at the very first such
state: at process start there are zero viewers, yet no countdown is
pending (`shutdown_task = None` until the first disconnect creates one),
and no single step from that state can terminate the process. -/
theorem idle_shutdown_counterexample :
    initState.connected_clients = [] ∧ initState.shutdown_task = none ∧
    initState.exited = none ∧ ¬ ∃ st', Step initState st' ∧ st'.exited ≠ none := by
  refine ⟨rfl, rfl, rfl, ?_⟩
  rintro ⟨st', hstep, hex⟩
  cases hstep with
  | connect v hrun => exact hex hrun
  | disconnect v hmem hclosed hrun => exact absurd hmem (List.not_mem_nil v)
  | tick n htask hrun => exact Option.noConfusion htask
  | fire htask hrun => exact Option.noConfusion htask
  | notify msg hrun => exact hex hrun

/-- From any running state with no viewers and a pending countdown of
`n` remaining seconds, letting the countdown tick to zero and fire
commits a clean `sys.exit(0)`. -/
theorem countdown_runs_out :
    ∀ (n : Nat) (st : ServerState), st.connected_clients = [] → st.exited = none →
      st.shutdown_task = some n →
      ∃ st', Relation.ReflTransGen Step st st' ∧ st'.exited = some 0 := by
  intro n
  induction n with
  | zero =>
      intro st hcl hex htask
      refine ⟨onTimerFire st, Relation.ReflTransGen.single (Step.fire st htask hex), ?_⟩
      simp [onTimerFire, hcl]
  | succ k ih =>
      intro st hcl hex htask
      obtain ⟨st', hsteps, hex'⟩ := ih { st with shutdown_task := some k } hcl hex rfl
      exact ⟨st', Relation.ReflTransGen.head (Step.tick st k htask hex) hsteps, hex'⟩

/-- Claim C8, amended:  The idle-shutdown discipline, as the code
implements it: (i) when the last viewer's handler finishes and the set
becomes empty, the disconnect step starts a 30-second countdown; (ii)
with zero viewers and a pending countdown, the countdown can run out
and the process then commits a clean exit with code 0; (iii) a viewer
joining while the process runs cancels any pending countdown, leaves a
nonempty viewer set, and no single step from the resulting state can
terminate the process; (iv) the only step that ever terminates the
process is an elapsed countdown firing with still zero viewers, and it
exits with code 0.  (At process start, before any viewer has connected,
no countdown is pending — see the counterexample.) -/
theorem idle_shutdown_amended :
    (∀ (st : ServerState) (v : Viewer), v ∈ st.connected_clients → v.closed = true →
      st.exited = none → (onDisconnect st v).connected_clients = [] →
      Step st (onDisconnect st v) ∧ (onDisconnect st v).shutdown_task = some 30) ∧
    (∀ (st : ServerState) (n : Nat), st.connected_clients = [] → st.exited = none →
      st.shutdown_task = some n →
      ∃ st', Relation.ReflTransGen Step st st' ∧ st'.exited = some 0) ∧
    (∀ (st : ServerState) (v : Viewer), st.exited = none →
      Step st (onConnect st v) ∧ (onConnect st v).shutdown_task = none ∧
      (onConnect st v).connected_clients ≠ [] ∧
      ¬ ∃ st', Step (onConnect st v) st' ∧ st'.exited ≠ none) ∧
    (∀ st st' : ServerState, Step st st' → st.exited = none → st'.exited ≠ none →
      st.shutdown_task = some 0 ∧ st.connected_clients = [] ∧ st'.exited = some 0) := by
  refine ⟨?_, ?_, ?_, ?_⟩
  · intro st v hmem hclosed hrun hempty
    refine ⟨Step.disconnect st v hmem hclosed hrun, ?_⟩
    have hc : (onDisconnect st v).connected_clients =
        st.connected_clients.filter fun w => w ≠ v := rfl
    rw [hc] at hempty
    have hlen : (st.connected_clients.filter fun w => w ≠ v).length = 0 := by
      rw [hempty]
      rfl
    show (if (st.connected_clients.filter fun w => w ≠ v).length = 0 then some 30
          else st.shutdown_task) = some 30
    rw [if_pos hlen]
  · intro st n hcl hex htask
    exact countdown_runs_out n st hcl hex htask
  · intro st v hrun
    refine ⟨Step.connect st v hrun, rfl, by simp [onConnect], ?_⟩
    rintro ⟨st', hstep, hex⟩
    cases hstep with
    | connect w hrun' => exact hex hrun'
    | disconnect w hmem hclosed hrun' => exact hex hrun'
    | tick n htask hrun' => exact hex hrun'
    | fire htask hrun' => exact Option.noConfusion htask
    | notify msg hrun' => exact hex hrun'
  · intro st st' hstep hex hex'
    cases hstep with
    | connect v hrun => exact absurd hrun hex'
    | disconnect v hmem hclosed hrun => exact absurd hrun hex'
    | tick n htask hrun => exact absurd hrun hex'
    | notify msg hrun => exact absurd hrun hex'
    | fire htask hrun =>
        by_cases hcl : st.connected_clients.length = 0
        · refine ⟨htask, List.length_eq_zero.mp hcl, ?_⟩
          simp [onTimerFire, hcl]
        · exfalso
          apply hex'
          simp [onTimerFire, hcl, hex]

/-- Witness for `idle_shutdown_amended`: the last viewer leaving starts
the 30-second countdown; a pending countdown with zero viewers can run
to a clean exit; a join cancels the countdown; a concrete fire step
exits with code 0 from an elapsed countdown. -/
theorem idle_shutdown_amended_witness :
    (Step lastViewerState (onDisconnect lastViewerState closedViewer) ∧
      (onDisconnect lastViewerState closedViewer).shutdown_task = some 30) ∧
    (∃ st', Relation.ReflTransGen Step idleState st' ∧ st'.exited = some 0) ∧
    (Step idleState (onConnect idleState openViewer) ∧
      (onConnect idleState openViewer).shutdown_task = none ∧
      (onConnect idleState openViewer).connected_clients ≠ [] ∧
      ¬ ∃ st', Step (onConnect idleState openViewer) st' ∧ st'.exited ≠ none) ∧
    (elapsedState.shutdown_task = some 0 ∧ elapsedState.connected_clients = [] ∧
      (onTimerFire elapsedState).exited = some 0) :=
  ⟨idle_shutdown_amended.1 lastViewerState closedViewer (by decide) rfl rfl (by decide),
   idle_shutdown_amended.2.1 idleState 2 rfl rfl rfl,
   idle_shutdown_amended.2.2.1 idleState openViewer rfl,
   idle_shutdown_amended.2.2.2 elapsedState (onTimerFire elapsedState)
     (Step.fire elapsedState rfl rfl) rfl (by decide)⟩

end SprintDashboard
